import Mathlib

/-!
Verification development for the data-packet request builder and signing
orchestrator of the Verus identity-update QR creator (requests/dataPacket.ts).

The TypeScript source is shallowly embedded: dynamic (unknown) inputs become
the JSON-like value type JVal, thrown ValidationError / generic Error become
the Err sum carried in Except, and Buffer values become lists of byte values
(Nat). External collaborators (the JSON.parse builtin, the verus primitives
codec library, the RPC signer) are either taken as function parameters or
modelled concretely; each such definition carries a doc comment saying so.
-/

namespace VerusQr

/-- JSON-like runtime values, modelling the TypeScript unknown payload fields
(null and undefined are both jnull, matching the loose value == null test). -/
inductive JVal where
  | jnull
  | jbool (b : Bool)
  | jnum (n : Int)
  | jstr (s : String)
  | jarr (elems : List JVal)
  | jobj (fields : List (String × JVal))

/-- The error taxonomy: ValidationError (client input, 400) versus every other
thrown error (operational, 500). -/
inductive Err where
  | validation (msg : String)
  | operation (msg : String)
deriving DecidableEq

/-- A JSON text parser, the type of the JSON.parse builtin. The development is
parametric in it: theorems hold for every parse behaviour. -/
abbrev JsonParse := String → Except String JVal

/-- Modelled from the spec: CompactIAddressObject, the opaque compact chain
identity / content address reference of the codec library; fromAddress is its
documented constructor. -/
structure CompactIAddressObject where
  address : String
deriving DecidableEq

/-- Modelled from the spec: the documented constructor of the compact-address
codec (only its use as a constructor matters to the claims). -/
def CompactIAddressObject.fromAddress (s : String) : CompactIAddressObject :=
  { address := s }

/-- Modelled from the spec: DataDescriptor, the versioned, flagged binary
payload container used as the atomic signable object (opaque codec record). -/
structure DataDescriptor where
  version : Int
  flags : Int
  objectdata : List Nat
deriving DecidableEq

/-- Modelled from the spec: URLRef record held by the keyed union container:
version, url, and optional 32-byte datahash. -/
structure URLRef where
  version : Nat
  url : String
  datahash : Option (List Nat)
deriving DecidableEq

/-- The raw request payload for both request paths. The six flag fields are
booleans; every other field is an unchecked JSON value, exactly as the
handlers receive req.body. generateDataPacketQr additionally reads redirects;
signDataPacket never does. -/
structure Payload where
  signingId : JVal := .jnull
  flagHasRequestId : Bool := false
  flagHasStatements : Bool := false
  flagHasSignature : Bool := false
  flagForUsersSignature : Bool := false
  flagForTransmittalToUser : Bool := false
  flagHasUrlForDownload : Bool := false
  signableObjects : JVal := .jnull
  statements : JVal := .jnull
  requestId : JVal := .jnull
  redirects : JVal := .jnull
  downloadUrl : JVal := .jnull
  dataHash : JVal := .jnull

namespace DataPacketRequestDetails

/-- Modelled from the spec: the six disjoint flag bit constants of
DataPacketRequestDetails in the codec library. -/
def HAS_REQUEST_ID : Nat := 1

/-- Modelled from the spec: flag bit constant (disjoint from the others). -/
def HAS_STATEMENTS : Nat := 2

/-- Modelled from the spec: flag bit constant (disjoint from the others). -/
def HAS_SIGNATURE : Nat := 4

/-- Modelled from the spec: flag bit constant (disjoint from the others). -/
def FOR_USERS_SIGNATURE : Nat := 8

/-- Modelled from the spec: flag bit constant (disjoint from the others). -/
def FOR_TRANSMITTAL_TO_USER : Nat := 16

/-- Modelled from the spec: flag bit constant (disjoint from the others). -/
def HAS_URL_FOR_DOWNLOAD : Nat := 32

end DataPacketRequestDetails

/-- buildFlags (dataPacket.ts lines 58-81): OR the bit of every set boolean
field into an accumulator starting from zero. -/
def buildFlags (payload : Payload) : Nat :=
  let flags : Nat := 0
  let flags := if payload.flagHasRequestId then flags ||| DataPacketRequestDetails.HAS_REQUEST_ID else flags
  let flags := if payload.flagHasStatements then flags ||| DataPacketRequestDetails.HAS_STATEMENTS else flags
  let flags := if payload.flagHasSignature then flags ||| DataPacketRequestDetails.HAS_SIGNATURE else flags
  let flags := if payload.flagForUsersSignature then flags ||| DataPacketRequestDetails.FOR_USERS_SIGNATURE else flags
  let flags := if payload.flagForTransmittalToUser then flags ||| DataPacketRequestDetails.FOR_TRANSMITTAL_TO_USER else flags
  let flags := if payload.flagHasUrlForDownload then flags ||| DataPacketRequestDetails.HAS_URL_FOR_DOWNLOAD else flags
  flags

/-- Modelled from the spec: the JS String.prototype.trim builtin (strip
leading and trailing whitespace), as an executable list-level function. -/
def trimStr (s : String) : String :=
  String.mk (((s.data.dropWhile Char.isWhitespace).reverse.dropWhile Char.isWhitespace).reverse)

/-- Modelled from the spec: the endsWith at-sign test of the JS builtin. -/
def strEndsWithAt (s : String) : Bool :=
  s.data.getLast? == some (Char.ofNat 64)

/-- Modelled from the spec: the JS slice(0, -1) builtin, dropping the final
character. -/
def dropLastChar (s : String) : String :=
  String.mk s.data.dropLast

/-- The cleaning step of parseOptionalIAddress (lines 52-53): trim whitespace,
then strip one trailing at-sign. -/
def cleanAddress (s : String) : String :=
  let trimmed := trimStr s
  if strEndsWithAt trimmed then dropLastChar trimmed else trimmed

/-- parseOptionalIAddress (lines 47-56): null/undefined or empty string is
absent; non-strings are a ValidationError; a string cleaning to empty is
absent; otherwise the cleaned remainder is parsed as a compact address. -/
def parseOptionalIAddress (value : JVal) (fieldName : String) :
    Except Err (Option CompactIAddressObject) :=
  match value with
  | .jnull => .ok none
  | .jstr s =>
      if s = "" then .ok none
      else
        let cleaned := cleanAddress s
        if cleaned = "" then .ok none
        else .ok (some (CompactIAddressObject.fromAddress cleaned))
  | _ => .error (.validation (fieldName ++ " must be a string."))

/-- Hex digit test of the regex character class [0-9a-fA-F], expressed on code
points. -/
def isHexDigit (c : Char) : Bool :=
  (48 ≤ c.toNat && c.toNat ≤ 57) || (97 ≤ c.toNat && c.toNat ≤ 102) ||
    (65 ≤ c.toNat && c.toNat ≤ 70)

/-- Numeric value of a hex digit character (0 for non-hex input, matching the
lenient byte decoding of the Buffer hex codec). -/
def hexDigitVal (c : Char) : Nat :=
  if 48 ≤ c.toNat && c.toNat ≤ 57 then c.toNat - 48
  else if 97 ≤ c.toNat && c.toNat ≤ 102 then c.toNat - 97 + 10
  else if 65 ≤ c.toNat && c.toNat ≤ 70 then c.toNat - 65 + 10
  else 0

/-- Buffer.from(s, hex): decode consecutive pairs of hex digits into bytes. -/
def hexToBytes : List Char → List Nat
  | c1 :: c2 :: rest => (16 * hexDigitVal c1 + hexDigitVal c2) :: hexToBytes rest
  | _ => []

/-- Lowercase hex digit character for a value below 16. -/
def hexDigitChar (n : Nat) : Char :=
  if n < 10 then Char.ofNat (48 + n) else Char.ofNat (97 + n - 10)

/-- One byte as two lowercase hex digit characters. -/
def byteToHex (b : Nat) : List Char :=
  [hexDigitChar (b / 16), hexDigitChar (b % 16)]

/-- Buffer.toString(hex): lowercase hex encoding of a byte list. -/
def bytesToHex (bs : List Nat) : List Char :=
  bs.flatMap byteToHex

/-- Hex encoding as a string. -/
def bytesToHexStr (bs : List Nat) : String :=
  String.mk (bytesToHex bs)

/-- validateDataHash (lines 156-164): falsy or whitespace-only input is
absent; a trimmed 64-character hex string decodes to a 32-byte buffer; any
other trimmed value is a ValidationError. -/
def validateDataHash (dataHash : Option String) : Except Err (Option (List Nat)) :=
  match dataHash with
  | none => .ok none
  | some s =>
      if s = "" then .ok none
      else
        let trimmed := trimStr s
        if trimmed.length = 0 then .ok none
        else if trimmed.length = 64 && trimmed.data.all isHexDigit then
          .ok (some (hexToBytes trimmed.data))
        else .error (.validation "Data hash must be exactly 32 bytes (64 hex characters).")

/-- First-match field lookup in a JSON object. -/
def lookupField (fields : List (String × JVal)) (key : String) : Option JVal :=
  match fields.find? (fun f => f.1 == key) with
  | some f => some f.2
  | none => none

/-- Modelled from the spec: DataDescriptor.fromJson, the documented codec
constructor: version and flags numbers (defaulted), objectdata decoded from a
hex string with the lenient Buffer hex codec. -/
def ddFromJson (v : JVal) : Except String DataDescriptor :=
  match v with
  | .jobj fields =>
      let version : Int := match lookupField fields "version" with
        | some (.jnum n) => n
        | _ => 1
      let flags : Int := match lookupField fields "flags" with
        | some (.jnum n) => n
        | _ => 0
      match lookupField fields "objectdata" with
      | some (.jstr h) => .ok { version := version, flags := flags, objectdata := hexToBytes h.data }
      | none => .ok { version := version, flags := flags, objectdata := [] }
      | some _ => .error "objectdata must be a hex string"
  | _ => .error "DataDescriptor JSON must be an object"

/-- The version/flags normalisation of parseSignableObjects (lines 110-114):
spread the object and replace version (default 1) and flags (default 0) by
numbers. Coercion of non-numeric values through the bignum library is
modelled as taking the default. -/
def normalizeVersionFlags (obj : JVal) : JVal :=
  match obj with
  | .jobj fields =>
      let version : JVal := match lookupField fields "version" with
        | some (.jnum n) => .jnum n
        | _ => .jnum 1
      let flags : JVal := match lookupField fields "flags" with
        | some (.jnum n) => .jnum n
        | _ => .jnum 0
      .jobj (("version", version) :: ("flags", flags) :: fields)
  | _ => .jobj [("version", .jnum 1), ("flags", .jnum 0)]

/-- The per-item mapping of parseSignableObjects (lines 106-120): build each
DataDescriptor in order, converting a codec failure into a ValidationError
naming the offending index. -/
def descriptorItems : List JVal → Nat → Except Err (List DataDescriptor)
  | [], _ => .ok []
  | obj :: rest, index =>
      match ddFromJson (normalizeVersionFlags obj) with
      | .error m =>
          .error (.validation ("Invalid DataDescriptor at index " ++ toString index ++ ": " ++ m))
      | .ok d =>
          match descriptorItems rest (index + 1) with
          | .error e => .error e
          | .ok ds => .ok (d :: ds)

/-- parseSignableObjects (lines 83-121): null, empty string, or the literal
"[]" become the empty list; strings go through JSON.parse; the result must be
an array whose items construct DataDescriptors. -/
def parseSignableObjects (jp : JsonParse) (value : JVal) : Except Err (List DataDescriptor) :=
  match value with
  | .jnull => .ok []
  | .jstr s =>
      if s = "" ∨ s = "[]" then .ok []
      else
        match jp s with
        | .error m => .error (.validation ("Invalid JSON for signableObjects: " ++ m))
        | .ok (.jarr parsed) => descriptorItems parsed 0
        | .ok _ => .error (.validation "signableObjects must be a JSON array.")
  | .jarr parsed => descriptorItems parsed 0
  | _ => .error (.validation "signableObjects must be a JSON array.")

/-- The per-item mapping of parseStatements (lines 146-151): every item must
be a string, reported with its index otherwise. -/
def statementItems : List JVal → Nat → Except Err (List String)
  | [], _ => .ok []
  | .jstr s :: rest, index =>
      match statementItems rest (index + 1) with
      | .error e => .error e
      | .ok ss => .ok (s :: ss)
  | _ :: _, index =>
      .error (.validation ("Statement at index " ++ toString index ++ " must be a string."))

/-- The tail of parseStatements (lines 146-153): collect the strings and
return them only when non-empty. -/
def statementsOfList (parsed : List JVal) : Except Err (Option (List String)) :=
  match statementItems parsed 0 with
  | .error e => .error e
  | .ok statements => .ok (if statements.length > 0 then some statements else none)

/-- parseStatements (lines 123-154): null, empty string, or the literal "[]"
are absent; strings go through JSON.parse; the result must be an array of
strings, and an empty list is absent. -/
def parseStatements (jp : JsonParse) (value : JVal) : Except Err (Option (List String)) :=
  match value with
  | .jnull => .ok none
  | .jstr s =>
      if s = "" ∨ s = "[]" then .ok none
      else
        match jp s with
        | .error m => .error (.validation ("Invalid JSON for statements: " ++ m))
        | .ok (.jarr parsed) => statementsOfList parsed
        | .ok _ => .error (.validation "statements must be a JSON array of strings.")
  | .jarr parsed => statementsOfList parsed
  | _ => .error (.validation "statements must be a JSON array of strings.")

/-- Modelled from the spec: the well-known vdxf key under which the keyed
union container (CrossChainDataRef) carries a URLRef; an opaque constant of
the codec library. -/
def CrossChainDataRefKey.vdxfid : String := "iCrossChainDataRefKey"

/-- A byte emitted into a modelled serialization (always below 256). -/
def serByte (n : Nat) : Nat := n % 256

/-- Modelled from the spec: 32-bit little-endian length or version encoding
used by the opaque codec serializations. -/
def serNat32 (n : Nat) : List Nat :=
  [n % 256, n / 256 % 256, n / 65536 % 256, n / 16777216 % 256]

/-- Byte list normalised into the 0..255 range. -/
def serBytes (bs : List Nat) : List Nat := bs.map serByte

/-- Modelled from the spec: length-prefixed string serialization of the
opaque codec. -/
def serString (s : String) : List Nat :=
  serNat32 s.length ++ serBytes (s.data.map Char.toNat)

/-- Modelled from the spec: byte serialization of a URLRef record. -/
def URLRef.toBytes (r : URLRef) : List Nat :=
  serNat32 r.version ++ serString r.url ++
    (match r.datahash with
     | none => serNat32 0
     | some h => serNat32 h.length ++ serBytes h)

/-- Modelled from the spec: VdxfUniValue.toBuffer, the byte serialization of
the keyed union container: each entry is its key followed by the URLRef
payload. -/
def uniValueToBuffer (values : List (String × URLRef)) : List Nat :=
  values.flatMap (fun kv => serString kv.1 ++ URLRef.toBytes kv.2)

/-- buildUrlDataDescriptor (lines 166-191): validate the optional hash, build
the URLRef with version 1, wrap it in the keyed union container under the
CrossChainDataRef key, serialize, and construct the DataDescriptor from the
hex of that buffer. A codec failure here is not caught as validation. -/
def buildUrlDataDescriptor (url : String) (dataHash : Option String) :
    Except Err DataDescriptor :=
  match validateDataHash dataHash with
  | .error e => .error e
  | .ok dataHashBuffer =>
      let urlRef : URLRef := { version := 1, url := url, datahash := dataHashBuffer }
      let urlRefMap : List (String × URLRef) := [(CrossChainDataRefKey.vdxfid, urlRef)]
      let buf := uniValueToBuffer urlRefMap
      match ddFromJson (.jobj [("version", .jnum 1), ("objectdata", .jstr (bytesToHexStr buf))]) with
      | .error m => .error (.operation m)
      | .ok d => .ok d

/-- The assembled DataPacketRequestDetails value (lines 201-214 and 352-365):
statements and requestID are present only when supplied non-empty. -/
structure Details where
  version : Nat
  flags : Nat
  signableObjects : List DataDescriptor
  statements : Option (List String)
  requestID : Option CompactIAddressObject
deriving DecidableEq

/-- The common construction of the details parameters (lines 201-214 in
buildDataPacketRequest and 352-365 in signDataPacket): version 1, the
composed flags, the signable objects, statements only when non-empty,
requestID only when present. -/
def mkDetails (flags : Nat) (signableObjects : List DataDescriptor)
    (statements : Option (List String)) (requestId : Option CompactIAddressObject) : Details :=
  { version := 1
    flags := flags
    signableObjects := signableObjects
    statements := match statements with
      | some l => if l.length > 0 then some l else none
      | none => none
    requestID := requestId }

/-- Modelled from the spec: the generic signed-request envelope of Path A,
wrapping the details together with the redirect sequence and the signing
identity (buildGenericRequestFromDetails lives in utils, outside src/). -/
structure GenericRequest where
  details : Details
  signed : Bool
  signingId : String
  redirects : List JVal

/-- Modelled from the spec: buildGenericRequestFromDetails (utils, outside
src/): wrap RequestDetails in the signed envelope with the redirect sequence
and signing identity. -/
def buildGenericRequestFromDetails (details : Details) (signed : Bool)
    (signingId : String) (redirects : List JVal) : GenericRequest :=
  { details := details, signed := signed, signingId := signingId, redirects := redirects }

/-- buildDataPacketRequest (lines 193-222): assemble the details and wrap them
in the generic signed-request envelope. -/
def buildDataPacketRequest (signingId : String) (flags : Nat)
    (signableObjects : List DataDescriptor) (statements : Option (List String))
    (requestId : Option CompactIAddressObject) (redirects : List JVal) : GenericRequest :=
  buildGenericRequestFromDetails (mkDetails flags signableObjects statements requestId)
    true signingId redirects

/-- Modelled from the spec: requireString (utils, outside src/): a mandatory
field must be supplied as a non-empty string, otherwise a ValidationError
naming the field. -/
def requireString (value : JVal) (fieldName : String) : Except Err String :=
  match value with
  | .jstr s => if s = "" then .error (.validation (fieldName ++ " is required.")) else .ok s
  | _ => .error (.validation (fieldName ++ " is required."))

/-- Modelled from the spec: parseJsonField (utils, outside src/): a JSON field
accepts an already-parsed value or a JSON-encoded string; null, the empty
string and the literal "[]" normalize to absent, which is a ValidationError
when the field is mandatory. -/
def parseJsonField (jp : JsonParse) (value : JVal) (fieldName : String) (required : Bool) :
    Except Err JVal :=
  match value with
  | .jnull =>
      if required then .error (.validation (fieldName ++ " is required.")) else .ok .jnull
  | .jstr s =>
      if s = "" ∨ s = "[]" then
        if required then .error (.validation (fieldName ++ " is required.")) else .ok .jnull
      else
        match jp s with
        | .error m => .error (.validation ("Invalid JSON for " ++ fieldName ++ ": " ++ m))
        | .ok parsed => .ok parsed
  | other => .ok other

/-- The exact mutual-exclusivity message (lines 232 and 330). -/
def mutualExclusivityMsg : String :=
  "\x27Has Signature\x27 and \x27For User\x27s Signature\x27 are mutually exclusive."

/-- The downloadUrl read of lines 242 and 340: trim when a string, empty
otherwise. -/
def downloadUrlOf (p : Payload) : String :=
  match p.downloadUrl with
  | .jstr s => trimStr s
  | _ => ""

/-- The dataHash read of lines 246 and 344: trim when a string, absent
otherwise. -/
def dataHashOf (p : Payload) : Option String :=
  match p.dataHash with
  | .jstr s => some (trimStr s)
  | _ => none

/-- The signable-object selection shared verbatim by both handlers (lines
240-251 and 338-349): when flagHasUrlForDownload is set, the sequence is
exactly the synthesized URL descriptor and the explicit input is never read;
otherwise the explicit input is parsed. -/
def signableObjectsFor (jp : JsonParse) (p : Payload) : Except Err (List DataDescriptor) :=
  if p.flagHasUrlForDownload then
    if downloadUrlOf p = "" then
      .error (.validation "Download URL is required when FLAG_HAS_URL_FOR_DOWNLOAD is set.")
    else
      match buildUrlDataDescriptor (downloadUrlOf p) (dataHashOf p) with
      | .error e => .error e
      | .ok urlDescriptor => .ok [urlDescriptor]
  else parseSignableObjects jp p.signableObjects

/-- The statements emptiness test of line 264: absent, or present but empty. -/
def statementsMissing (statements : Option (List String)) : Bool :=
  match statements with
  | none => true
  | some l => decide (l.length = 0)

/-- The pure prefix of generateDataPacketQr (lines 224-278): everything the
handler does before the RPC signing call, producing the request to sign or
the eager error. -/
def generateDataPacketQrCore (jp : JsonParse) (p : Payload) : Except Err GenericRequest :=
  match requireString p.signingId "signingId" with
  | .error e => .error e
  | .ok signingId =>
  if p.flagHasSignature && p.flagForUsersSignature then
    .error (.validation mutualExclusivityMsg)
  else
    match parseStatements jp p.statements with
    | .error e => .error e
    | .ok statements =>
    match parseOptionalIAddress p.requestId "requestId" with
    | .error e => .error e
    | .ok requestId =>
    match signableObjectsFor jp p with
    | .error e => .error e
    | .ok signableObjects =>
    match parseJsonField jp p.redirects "redirects" true with
    | .error e => .error e
    | .ok redirectsVal =>
    match redirectsVal with
    | .jarr redirects =>
        if redirects.length = 0 then
          .error (.validation "redirects must be a non-empty JSON array.")
        else if p.flagHasStatements && statementsMissing statements then
          .error (.validation "Statements are required when FLAG_HAS_STATEMENTS is set.")
        else if p.flagHasRequestId && requestId.isNone then
          .error (.validation "Request ID is required when FLAG_HAS_REQUEST_ID is set.")
        else
          .ok (buildDataPacketRequest signingId (buildFlags p) signableObjects statements
            requestId redirects)
    | _ => .error (.validation "redirects must be a non-empty JSON array.")

/-- Modelled from the spec: byte serialization of one DataDescriptor inside
the details serialization (opaque codec). -/
def ddToBytes (d : DataDescriptor) : List Nat :=
  serNat32 d.version.toNat ++ serNat32 d.flags.toNat ++
    serNat32 d.objectdata.length ++ serBytes d.objectdata

/-- Modelled from the spec: DataPacketRequestDetails.toBuffer, the canonical
byte serialization of the details alone — no envelope and no redirects appear
in it; statements and requestID are serialized exactly when present in the
record. -/
def detailsToBuffer (d : Details) : List Nat :=
  serNat32 d.version ++ serNat32 d.flags ++ serNat32 d.signableObjects.length ++
    d.signableObjects.flatMap ddToBytes ++
    (match d.statements with
     | none => []
     | some l => serNat32 l.length ++ l.flatMap serString) ++
    (match d.requestID with
     | none => []
     | some a => serString a.address)

/-- Modelled from the spec: QR image rendering of a URI string (opaque
renderer with fixed error-correction, margin and scale). -/
def qrToDataURL (s : String) : String :=
  "data:image/png;base64," ++ s

/-- The signing collaborator of Path A (signRequest in utils, outside src/):
identity-keyed RPC signing of the wrapped request; failures are operational. -/
abbrev EnvelopeSigner := GenericRequest → Except String Unit

/-- Modelled from the spec: toWalletDeeplinkUri, the deeplink URI encoding of
the signed request (opaque encoder). -/
def toWalletDeeplinkUri (r : GenericRequest) : String :=
  "verus://x-callback-url/" ++ r.signingId ++ "/" ++ bytesToHexStr (detailsToBuffer r.details)

/-- The successful response of generateDataPacketQr (line 296). -/
structure GenerateResponse where
  deeplink : String
  qrDataUrl : String

/-- generateDataPacketQr (lines 224-305): run the pure prefix, sign the
wrapped request over RPC (an RPC failure is operational, not validation),
then encode the deeplink and render the QR image. -/
def generateDataPacketQr (jp : JsonParse) (signer : EnvelopeSigner) (p : Payload) :
    Except Err GenerateResponse :=
  match generateDataPacketQrCore jp p with
  | .error e => .error e
  | .ok reqToSign =>
      match signer reqToSign with
      | .error m => .error (.operation m)
      | .ok _ =>
          let deeplink := toWalletDeeplinkUri reqToSign
          .ok { deeplink := deeplink, qrDataUrl := qrToDataURL deeplink }

/-- The signdata RPC collaborator of Path B: given the signing identity and
the hex message, it returns the wire result object, or the error envelope as
an Except error. -/
abbrev Signer := String → String → Except String JVal

/-- Modelled from the spec: VerifiableSignatureData.fromCLIJson followed by
toJson — the signer wire response normalized into the canonical
verifiable-signature JSON record (opaque normalizer). -/
def normalizeSignatureData (result : JVal) : JVal :=
  .jobj [("signaturedata", result)]

/-- The successful response of signDataPacket (lines 403-406). -/
structure SignResponse where
  signatureData : JVal
  messageHex : String

/-- The pure prefix of signDataPacket (lines 322-365): the same validation
and signable-object selection as Path A minus the redirect handling and minus
the flag-consistency checks, assembling the details directly. -/
def signDataPacketCore (jp : JsonParse) (p : Payload) : Except Err (String × Details) :=
  match requireString p.signingId "signingId" with
  | .error e => .error e
  | .ok signingId =>
  if p.flagHasSignature && p.flagForUsersSignature then
    .error (.validation mutualExclusivityMsg)
  else
    match parseStatements jp p.statements with
    | .error e => .error e
    | .ok statements =>
    match parseOptionalIAddress p.requestId "requestId" with
    | .error e => .error e
    | .ok requestId =>
    match signableObjectsFor jp p with
    | .error e => .error e
    | .ok signableObjects =>
        .ok (signingId, mkDetails (buildFlags p) signableObjects statements requestId)

/-- The RPC phase of signDataPacket (lines 367-406): hex-encode the details
serialization, call the signdata RPC with the signing identity and that hex
(an RPC error envelope or a wire result without a string signature field is
an operational error), and return the normalized signature together with the
same messageHex. -/
def signDataPacketRpc (signer : Signer) (signingId : String) (details : Details) :
    Except Err SignResponse :=
  match signer signingId (bytesToHexStr (detailsToBuffer details)) with
  | .error m => .error (.operation m)
  | .ok result =>
      match result with
      | .jobj fields =>
          match lookupField fields "signature" with
          | some (.jstr _) =>
              .ok { signatureData := normalizeSignatureData (.jobj fields)
                    messageHex := bytesToHexStr (detailsToBuffer details) }
          | _ => .error (.operation "RPC signdata returned no valid signature.")
      | _ => .error (.operation "RPC signdata returned no valid signature.")

/-- signDataPacket (lines 322-415): assemble the details, then run the RPC
phase on them. -/
def signDataPacket (jp : JsonParse) (signer : Signer) (p : Payload) :
    Except Err SignResponse :=
  match signDataPacketCore jp p with
  | .error e => .error e
  | .ok (signingId, details) => signDataPacketRpc signer signingId details

/-! ### Hex codec lemmas -/

theorem hexDigitVal_lt16 (c : Char) : hexDigitVal c < 16 := by
  unfold hexDigitVal
  repeat' split
  all_goals simp_all
  all_goals omega

theorem hexDigitVal_hexDigitChar_fin : ∀ n : Fin 16, hexDigitVal (hexDigitChar n.val) = n.val := by
  decide

theorem hexDigitVal_hexDigitChar (n : Nat) (h : n < 16) :
    hexDigitVal (hexDigitChar n) = n :=
  hexDigitVal_hexDigitChar_fin ⟨n, h⟩

theorem hexDigitChar_hexDigitVal (c : Char) (h : isHexDigit c = true) :
    hexDigitChar (hexDigitVal c) = c.toLower := by
  unfold isHexDigit at h
  simp only [Bool.or_eq_true, Bool.and_eq_true, decide_eq_true_eq] at h
  simp only [Char.toLower]
  rcases h with (⟨h1, h2⟩ | ⟨h1, h2⟩) | ⟨h1, h2⟩
  · have hv : hexDigitVal c = c.toNat - 48 := by
      unfold hexDigitVal
      rw [if_pos (by simp only [Bool.and_eq_true, decide_eq_true_eq]; exact ⟨h1, h2⟩)]
    rw [hv]
    unfold hexDigitChar
    rw [if_pos (by omega), if_neg (by omega)]
    rw [show 48 + (c.toNat - 48) = c.toNat by omega, Char.ofNat_toNat]
  · have hv : hexDigitVal c = c.toNat - 97 + 10 := by
      unfold hexDigitVal
      rw [if_neg (by simp only [Bool.and_eq_true, decide_eq_true_eq, not_and]; omega),
        if_pos (by simp only [Bool.and_eq_true, decide_eq_true_eq]; exact ⟨h1, h2⟩)]
    rw [hv]
    unfold hexDigitChar
    rw [if_neg (by omega), if_neg (by omega)]
    rw [show 97 + (c.toNat - 97 + 10) - 10 = c.toNat by omega, Char.ofNat_toNat]
  · have hv : hexDigitVal c = c.toNat - 65 + 10 := by
      unfold hexDigitVal
      rw [if_neg (by simp only [Bool.and_eq_true, decide_eq_true_eq, not_and]; omega),
        if_neg (by simp only [Bool.and_eq_true, decide_eq_true_eq, not_and]; omega),
        if_pos (by simp only [Bool.and_eq_true, decide_eq_true_eq]; exact ⟨h1, h2⟩)]
    rw [hv]
    unfold hexDigitChar
    rw [if_neg (by omega), if_pos (by omega)]
    rw [show 97 + (c.toNat - 65 + 10) - 10 = c.toNat + 32 by omega]

theorem bytesToHex_cons (b : Nat) (bs : List Nat) :
    bytesToHex (b :: bs) = byteToHex b ++ bytesToHex bs := by
  simp [bytesToHex]

theorem hexToBytes_length : ∀ cs : List Char, (hexToBytes cs).length = cs.length / 2
  | [] => rfl
  | [_] => by
      simp [hexToBytes]
  | _ :: _ :: rest => by
      simp only [hexToBytes, List.length_cons, hexToBytes_length rest]
      omega

theorem bytesToHex_hexToBytes : ∀ cs : List Char, cs.all isHexDigit = true →
    cs.length % 2 = 0 → bytesToHex (hexToBytes cs) = cs.map Char.toLower
  | [], _, _ => rfl
  | [_], _, hl => by simp at hl
  | c1 :: c2 :: rest, h, hl => by
      simp only [List.all_cons, Bool.and_eq_true] at h
      obtain ⟨h1, h2, h3⟩ := h
      have e1 : (16 * hexDigitVal c1 + hexDigitVal c2) / 16 = hexDigitVal c1 := by
        have := hexDigitVal_lt16 c2
        omega
      have e2 : (16 * hexDigitVal c1 + hexDigitVal c2) % 16 = hexDigitVal c2 := by
        have := hexDigitVal_lt16 c2
        omega
      have ih := bytesToHex_hexToBytes rest h3 (by
        simp only [List.length_cons] at hl
        omega)
      simp only [hexToBytes, bytesToHex_cons, byteToHex, e1, e2,
        hexDigitChar_hexDigitVal c1 h1, hexDigitChar_hexDigitVal c2 h2, List.map_cons,
        List.cons_append, List.nil_append, ih]

theorem hexToBytes_bytesToHex : ∀ bs : List Nat, (∀ b ∈ bs, b < 256) →
    hexToBytes (bytesToHex bs) = bs
  | [], _ => rfl
  | b :: rest, h => by
      have hb : b < 256 := h b (List.mem_cons_self b rest)
      have hv1 : hexDigitVal (hexDigitChar (b / 16)) = b / 16 :=
        hexDigitVal_hexDigitChar _ (by omega)
      have hv2 : hexDigitVal (hexDigitChar (b % 16)) = b % 16 :=
        hexDigitVal_hexDigitChar _ (by omega)
      have e0 : hexToBytes (bytesToHex (b :: rest)) =
          (16 * hexDigitVal (hexDigitChar (b / 16)) + hexDigitVal (hexDigitChar (b % 16))) ::
            hexToBytes (bytesToHex rest) := rfl
      rw [e0, hv1, hv2, show 16 * (b / 16) + b % 16 = b by omega,
        hexToBytes_bytesToHex rest (fun x hx => h x (List.mem_cons_of_mem _ hx))]

/-! ### Serialization byte bounds -/

theorem serNat32_lt (n : Nat) : ∀ x ∈ serNat32 n, x < 256 := by
  intro x hx
  simp only [serNat32, List.mem_cons, List.not_mem_nil, or_false] at hx
  rcases hx with rfl | rfl | rfl | rfl
  all_goals omega

theorem serBytes_lt (bs : List Nat) : ∀ x ∈ serBytes bs, x < 256 := by
  intro x hx
  simp only [serBytes, List.mem_map] at hx
  obtain ⟨b, _, rfl⟩ := hx
  unfold serByte
  omega

theorem serString_lt (s : String) : ∀ x ∈ serString s, x < 256 := by
  intro x hx
  simp only [serString, List.mem_append] at hx
  rcases hx with hx | hx
  · exact serNat32_lt _ x hx
  · exact serBytes_lt _ x hx

theorem URLRef.toBytes_lt (r : URLRef) : ∀ x ∈ r.toBytes, x < 256 := by
  intro x hx
  unfold URLRef.toBytes at hx
  simp only [List.mem_append] at hx
  rcases hx with (hx | hx) | hx
  · exact serNat32_lt _ x hx
  · exact serString_lt _ x hx
  · cases hd : r.datahash with
    | none =>
        rw [hd] at hx
        exact serNat32_lt _ x hx
    | some hbytes =>
        rw [hd] at hx
        simp only [List.mem_append] at hx
        rcases hx with hx | hx
        · exact serNat32_lt _ x hx
        · exact serBytes_lt _ x hx

theorem uniValueToBuffer_lt (values : List (String × URLRef)) :
    ∀ x ∈ uniValueToBuffer values, x < 256 := by
  intro x hx
  simp only [uniValueToBuffer, List.mem_flatMap] at hx
  obtain ⟨kv, _, hkv⟩ := hx
  simp only [List.mem_append] at hkv
  rcases hkv with hkv | hkv
  · exact serString_lt _ x hkv
  · exact URLRef.toBytes_lt _ x hkv

/-- The synthesized URL descriptor: version 1, flags 0, and the serialized
keyed union container holding the URLRef as payload. -/
def urlDescriptorOf (url : String) (buf : Option (List Nat)) : DataDescriptor :=
  { version := 1
    flags := 0
    objectdata := uniValueToBuffer
      [(CrossChainDataRefKey.vdxfid, { version := 1, url := url, datahash := buf })] }

/-- Characterization of buildUrlDataDescriptor: it is exactly the synthesized
URL descriptor, gated on hash validation. -/
theorem buildUrlDataDescriptor_eq (url : String) (dh : Option String) :
    buildUrlDataDescriptor url dh =
      match validateDataHash dh with
      | .error e => .error e
      | .ok buf => .ok (urlDescriptorOf url buf) := by
  unfold buildUrlDataDescriptor
  cases hv : validateDataHash dh with
  | error e => rfl
  | ok buf =>
      show Except.ok (⟨1, 0, hexToBytes (bytesToHex (uniValueToBuffer
          [(CrossChainDataRefKey.vdxfid, ⟨1, url, buf⟩)]))⟩ : DataDescriptor) =
        .ok (urlDescriptorOf url buf)
      rw [hexToBytes_bytesToHex _ (uniValueToBuffer_lt _)]
      rfl

/-! ### Parser shape lemmas: every eager failure is a ValidationError -/

theorem requireString_error {v : JVal} {n : String} {e : Err}
    (h : requireString v n = .error e) : ∃ m, e = .validation m := by
  cases v <;> simp only [requireString] at h
  case jstr s =>
    split at h
    · injection h with h1
      exact ⟨_, h1.symm⟩
    · exact Except.noConfusion h
  all_goals (injection h with h1; exact ⟨_, h1.symm⟩)

theorem parseOptionalIAddress_error {v : JVal} {f : String} {e : Err}
    (h : parseOptionalIAddress v f = .error e) : ∃ m, e = .validation m := by
  cases v <;> simp only [parseOptionalIAddress] at h
  case jnull => exact Except.noConfusion h
  case jstr s =>
    split at h
    · exact Except.noConfusion h
    · split at h
      · exact Except.noConfusion h
      · exact Except.noConfusion h
  all_goals (injection h with h1; exact ⟨_, h1.symm⟩)

theorem statementItems_error (l : List JVal) : ∀ (i : Nat) {e : Err},
    statementItems l i = .error e → ∃ m, e = .validation m := by
  induction l with
  | nil => intro i e h; exact Except.noConfusion h
  | cons v rest ih =>
      intro i e h
      cases v <;> simp only [statementItems] at h
      case jstr s =>
        split at h
        next e1 heq =>
          injection h with h1
          obtain ⟨m, hm⟩ := ih (i + 1) heq
          exact ⟨m, h1 ▸ hm⟩
        next ss heq => exact Except.noConfusion h
      all_goals (injection h with h1; exact ⟨_, h1.symm⟩)

theorem statementsOfList_error {parsed : List JVal} {e : Err}
    (h : statementsOfList parsed = .error e) : ∃ m, e = .validation m := by
  unfold statementsOfList at h
  split at h
  next e1 heq =>
    injection h with h1
    obtain ⟨m, hm⟩ := statementItems_error parsed 0 heq
    exact ⟨m, h1 ▸ hm⟩
  next ss heq => exact Except.noConfusion h

theorem parseStatements_error {jp : JsonParse} {v : JVal} {e : Err}
    (h : parseStatements jp v = .error e) : ∃ m, e = .validation m := by
  cases v <;> simp only [parseStatements] at h
  case jnull => exact Except.noConfusion h
  case jstr s =>
    split at h
    · exact Except.noConfusion h
    · split at h
      · injection h with h1
        exact ⟨_, h1.symm⟩
      · exact statementsOfList_error h
      · injection h with h1
        exact ⟨_, h1.symm⟩
  case jarr parsed => exact statementsOfList_error h
  all_goals (injection h with h1; exact ⟨_, h1.symm⟩)

theorem descriptorItems_error (l : List JVal) : ∀ (i : Nat) {e : Err},
    descriptorItems l i = .error e → ∃ m, e = .validation m := by
  induction l with
  | nil => intro i e h; exact Except.noConfusion h
  | cons v rest ih =>
      intro i e h
      simp only [descriptorItems] at h
      split at h
      · injection h with h1
        exact ⟨_, h1.symm⟩
      · split at h
        next e1 heq =>
          injection h with h1
          obtain ⟨m, hm⟩ := ih (i + 1) heq
          exact ⟨m, h1 ▸ hm⟩
        next ds heq => exact Except.noConfusion h

theorem parseSignableObjects_error {jp : JsonParse} {v : JVal} {e : Err}
    (h : parseSignableObjects jp v = .error e) : ∃ m, e = .validation m := by
  cases v <;> simp only [parseSignableObjects] at h
  case jnull => exact Except.noConfusion h
  case jstr s =>
    split at h
    · exact Except.noConfusion h
    · split at h
      · injection h with h1
        exact ⟨_, h1.symm⟩
      · exact descriptorItems_error _ 0 h
      · injection h with h1
        exact ⟨_, h1.symm⟩
  case jarr parsed => exact descriptorItems_error _ 0 h
  all_goals (injection h with h1; exact ⟨_, h1.symm⟩)

theorem validateDataHash_error {dh : Option String} {e : Err}
    (h : validateDataHash dh = .error e) : ∃ m, e = .validation m := by
  cases dh <;> simp only [validateDataHash] at h
  case none => exact Except.noConfusion h
  case some s =>
    split at h
    · exact Except.noConfusion h
    · split at h
      · exact Except.noConfusion h
      · split at h
        · exact Except.noConfusion h
        · injection h with h1
          exact ⟨_, h1.symm⟩

theorem buildUrlDataDescriptor_error {url : String} {dh : Option String} {e : Err}
    (h : buildUrlDataDescriptor url dh = .error e) : ∃ m, e = .validation m := by
  rw [buildUrlDataDescriptor_eq] at h
  split at h
  next e1 heq =>
    injection h with h1
    obtain ⟨m, hm⟩ := validateDataHash_error heq
    exact ⟨m, h1 ▸ hm⟩
  next buf heq => exact Except.noConfusion h

theorem signableObjectsFor_error {jp : JsonParse} {p : Payload} {e : Err}
    (h : signableObjectsFor jp p = .error e) : ∃ m, e = .validation m := by
  unfold signableObjectsFor at h
  split at h
  · split at h
    · injection h with h1
      exact ⟨_, h1.symm⟩
    · split at h
      next e1 heq =>
        injection h with h1
        obtain ⟨m, hm⟩ := buildUrlDataDescriptor_error heq
        exact ⟨m, h1 ▸ hm⟩
      next d heq => exact Except.noConfusion h
  · exact parseSignableObjects_error h

theorem parseJsonField_error {jp : JsonParse} {v : JVal} {f : String} {r : Bool} {e : Err}
    (h : parseJsonField jp v f r = .error e) : ∃ m, e = .validation m := by
  cases v <;> simp only [parseJsonField] at h
  case jnull =>
    split at h
    · injection h with h1
      exact ⟨_, h1.symm⟩
    · exact Except.noConfusion h
  case jstr s =>
    split at h
    · split at h
      · injection h with h1
        exact ⟨_, h1.symm⟩
      · exact Except.noConfusion h
    · split at h
      · injection h with h1
        exact ⟨_, h1.symm⟩
      · exact Except.noConfusion h
  all_goals exact Except.noConfusion h

/-! ### Parsed statements are never an empty some -/

theorem statementsOfList_some_pos {parsed : List JVal} {l : List String}
    (h : statementsOfList parsed = .ok (some l)) : 0 < l.length := by
  unfold statementsOfList at h
  split at h
  next e1 heq => exact Except.noConfusion h
  next ss heq =>
    injection h with h1
    split at h1
    next hpos =>
      cases h1
      omega
    next => exact Option.noConfusion h1

theorem parseStatements_some_pos {jp : JsonParse} {v : JVal} {l : List String}
    (h : parseStatements jp v = .ok (some l)) : 0 < l.length := by
  cases v <;> simp only [parseStatements] at h
  case jnull =>
    injection h with h1
    exact Option.noConfusion h1
  case jstr s =>
    split at h
    · injection h with h1
      exact Option.noConfusion h1
    · split at h
      · exact Except.noConfusion h
      · exact statementsOfList_some_pos h
      · exact Except.noConfusion h
  case jarr parsed => exact statementsOfList_some_pos h
  all_goals exact Except.noConfusion h

/-- The presence-gated statements slot of the assembled details keeps the
parsed statements unchanged, because parsed statements are never an empty
some. -/
theorem mkDetails_statements {flags : Nat} {so : List DataDescriptor}
    {st : Option (List String)} {rid : Option CompactIAddressObject}
    (hst : ∀ l, st = some l → 0 < l.length) :
    (mkDetails flags so st rid).statements = st := by
  cases st with
  | none => rfl
  | some l =>
      show (if l.length > 0 then some l else none) = some l
      rw [if_pos (hst l rfl)]

/-! ### Core inversion and error-shape lemmas -/

theorem generateDataPacketQr_core_error {jp : JsonParse} {sA : EnvelopeSigner} {p : Payload}
    {e : Err} (h : generateDataPacketQrCore jp p = .error e) :
    generateDataPacketQr jp sA p = .error e := by
  unfold generateDataPacketQr
  rw [h]

theorem signDataPacket_core_error {jp : JsonParse} {s : Signer} {p : Payload}
    {e : Err} (h : signDataPacketCore jp p = .error e) :
    signDataPacket jp s p = .error e := by
  unfold signDataPacket
  rw [h]

theorem generateDataPacketQrCore_error {jp : JsonParse} {p : Payload} {e : Err}
    (h : generateDataPacketQrCore jp p = .error e) : ∃ m, e = .validation m := by
  unfold generateDataPacketQrCore at h
  split at h
  next e1 heq =>
    injection h with h1
    obtain ⟨m, hm⟩ := requireString_error heq
    exact ⟨m, h1 ▸ hm⟩
  next sid heq =>
    split at h
    · injection h with h1
      exact ⟨_, h1.symm⟩
    · split at h
      next e1 heq2 =>
        injection h with h1
        obtain ⟨m, hm⟩ := parseStatements_error heq2
        exact ⟨m, h1 ▸ hm⟩
      next st heq2 =>
        split at h
        next e1 heq3 =>
          injection h with h1
          obtain ⟨m, hm⟩ := parseOptionalIAddress_error heq3
          exact ⟨m, h1 ▸ hm⟩
        next rid heq3 =>
          split at h
          next e1 heq4 =>
            injection h with h1
            obtain ⟨m, hm⟩ := signableObjectsFor_error heq4
            exact ⟨m, h1 ▸ hm⟩
          next so heq4 =>
            split at h
            next e1 heq5 =>
              injection h with h1
              obtain ⟨m, hm⟩ := parseJsonField_error heq5
              exact ⟨m, h1 ▸ hm⟩
            next rv heq5 =>
              split at h
              next xs =>
                split at h
                · injection h with h1
                  exact ⟨_, h1.symm⟩
                · split at h
                  · injection h with h1
                    exact ⟨_, h1.symm⟩
                  · split at h
                    · injection h with h1
                      exact ⟨_, h1.symm⟩
                    · exact Except.noConfusion h
              next => injection h with h1; exact ⟨_, h1.symm⟩

theorem generateDataPacketQrCore_ok {jp : JsonParse} {p : Payload} {req : GenericRequest}
    (h : generateDataPacketQrCore jp p = .ok req) :
    (p.flagHasSignature && p.flagForUsersSignature) = false ∧
    parseStatements jp p.statements = .ok req.details.statements ∧
    parseOptionalIAddress p.requestId "requestId" = .ok req.details.requestID ∧
    signableObjectsFor jp p = .ok req.details.signableObjects ∧
    parseJsonField jp p.redirects "redirects" true = .ok (.jarr req.redirects) ∧
    req.redirects ≠ [] ∧
    (p.flagHasStatements = true → req.details.statements ≠ none) ∧
    (p.flagHasRequestId = true → req.details.requestID ≠ none) ∧
    req.details.flags = buildFlags p ∧
    req.details.version = 1 ∧
    (∃ sid, requireString p.signingId "signingId" = .ok sid ∧ req.signingId = sid) := by
  unfold generateDataPacketQrCore at h
  split at h
  next e1 heq => exact Except.noConfusion h
  next sid heq =>
    split at h
    · exact Except.noConfusion h
    next hmut =>
      split at h
      next e1 heq2 => exact Except.noConfusion h
      next st heq2 =>
        split at h
        next e1 heq3 => exact Except.noConfusion h
        next rid heq3 =>
          split at h
          next e1 heq4 => exact Except.noConfusion h
          next so heq4 =>
            split at h
            next e1 heq5 => exact Except.noConfusion h
            next rv heq5 =>
              split at h
              next xs =>
                split at h
                · exact Except.noConfusion h
                next hlen =>
                  split at h
                  · exact Except.noConfusion h
                  next hstchk =>
                    split at h
                    · exact Except.noConfusion h
                    next hridchk =>
                      injection h with h1
                      subst h1
                      have hst_pos : ∀ l, st = some l → 0 < l.length := fun l hl =>
                        parseStatements_some_pos (hl ▸ heq2)
                      have hdst :
                          (buildDataPacketRequest sid (buildFlags p) so st rid xs).details.statements
                            = st := mkDetails_statements hst_pos
                      refine ⟨by simpa [Bool.not_eq_true] using hmut, ?_, ?_, ?_, ?_, ?_, ?_, ?_,
                        rfl, rfl, ⟨sid, heq, rfl⟩⟩
                      · rw [hdst]; exact heq2
                      · exact heq3
                      · exact heq4
                      · exact heq5
                      · intro hnil
                        exact hlen (by rw [show
                          (buildDataPacketRequest sid (buildFlags p) so st rid xs).redirects = xs
                          from rfl] at hnil; rw [hnil]; rfl)
                      · intro hflag hnone
                        rw [hdst] at hnone
                        exact hstchk (by rw [hflag, hnone]; rfl)
                      · intro hflag hnone
                        rw [show
                          (buildDataPacketRequest sid (buildFlags p) so st rid xs).details.requestID
                          = rid from rfl] at hnone
                        exact hridchk (by rw [hflag, hnone]; rfl)
              next => exact Except.noConfusion h

theorem signDataPacketCore_ok {jp : JsonParse} {p : Payload} {sid : String} {details : Details}
    (h : signDataPacketCore jp p = .ok (sid, details)) :
    (p.flagHasSignature && p.flagForUsersSignature) = false ∧
    requireString p.signingId "signingId" = .ok sid ∧
    parseStatements jp p.statements = .ok details.statements ∧
    parseOptionalIAddress p.requestId "requestId" = .ok details.requestID ∧
    signableObjectsFor jp p = .ok details.signableObjects ∧
    details.flags = buildFlags p ∧
    details.version = 1 := by
  unfold signDataPacketCore at h
  split at h
  next e1 heq => exact Except.noConfusion h
  next sid1 heq =>
    split at h
    · exact Except.noConfusion h
    next hmut =>
      split at h
      next e1 heq2 => exact Except.noConfusion h
      next st heq2 =>
        split at h
        next e1 heq3 => exact Except.noConfusion h
        next rid heq3 =>
          split at h
          next e1 heq4 => exact Except.noConfusion h
          next so heq4 =>
            injection h with h1
            injection h1 with h2 h3
            subst h2
            subst h3
            have hst_pos : ∀ l, st = some l → 0 < l.length := fun l hl =>
              parseStatements_some_pos (hl ▸ heq2)
            have hdst : (mkDetails (buildFlags p) so st rid).statements = st :=
              mkDetails_statements hst_pos
            refine ⟨by simpa [Bool.not_eq_true] using hmut, heq, ?_, heq3, heq4, rfl, rfl⟩
            rw [hdst]
            exact heq2

/-! ### Flag algebra -/

/-- The six boolean flag inputs as a tuple. -/
def flagTuple (p : Payload) : Bool × Bool × Bool × Bool × Bool × Bool :=
  (p.flagHasRequestId, p.flagHasStatements, p.flagHasSignature, p.flagForUsersSignature,
    p.flagForTransmittalToUser, p.flagHasUrlForDownload)

/-- The bitwise OR of the disjoint bits of the set fields. -/
def flagsOfTuple : Bool × Bool × Bool × Bool × Bool × Bool → Nat
  | (b1, b2, b3, b4, b5, b6) =>
      (if b1 then DataPacketRequestDetails.HAS_REQUEST_ID else 0) |||
      (if b2 then DataPacketRequestDetails.HAS_STATEMENTS else 0) |||
      (if b3 then DataPacketRequestDetails.HAS_SIGNATURE else 0) |||
      (if b4 then DataPacketRequestDetails.FOR_USERS_SIGNATURE else 0) |||
      (if b5 then DataPacketRequestDetails.FOR_TRANSMITTAL_TO_USER else 0) |||
      (if b6 then DataPacketRequestDetails.HAS_URL_FOR_DOWNLOAD else 0)

/-- The per-field bit contributions in field order. -/
def flagBitList (p : Payload) : List Nat :=
  [if p.flagHasRequestId then DataPacketRequestDetails.HAS_REQUEST_ID else 0,
   if p.flagHasStatements then DataPacketRequestDetails.HAS_STATEMENTS else 0,
   if p.flagHasSignature then DataPacketRequestDetails.HAS_SIGNATURE else 0,
   if p.flagForUsersSignature then DataPacketRequestDetails.FOR_USERS_SIGNATURE else 0,
   if p.flagForTransmittalToUser then DataPacketRequestDetails.FOR_TRANSMITTAL_TO_USER else 0,
   if p.flagHasUrlForDownload then DataPacketRequestDetails.HAS_URL_FOR_DOWNLOAD else 0]

theorem buildFlags_eq_tuple (p : Payload) : buildFlags p = flagsOfTuple (flagTuple p) := by
  rcases p with ⟨f0, b1, b2, b3, b4, b5, b6, f7, f8, f9, f10, f11, f12⟩
  cases b1 <;> cases b2 <;> cases b3 <;> cases b4 <;> cases b5 <;> cases b6 <;>
    simp [buildFlags, flagsOfTuple, flagTuple]

theorem buildFlags_eq_foldl (p : Payload) :
    buildFlags p = (flagBitList p).foldl (fun a b => a ||| b) 0 := by
  rcases p with ⟨f0, b1, b2, b3, b4, b5, b6, f7, f8, f9, f10, f11, f12⟩
  cases b1 <;> cases b2 <;> cases b3 <;> cases b4 <;> cases b5 <;> cases b6 <;>
    simp [buildFlags, flagBitList]

set_option maxRecDepth 4000 in
theorem flagsOfTuple_inj : ∀ t u : Bool × Bool × Bool × Bool × Bool × Bool,
    flagsOfTuple t = flagsOfTuple u → t = u := by decide

theorem foldl_or_perm {l l2 : List Nat} (h : l.Perm l2) :
    ∀ a : Nat, l.foldl (fun x y => x ||| y) a = l2.foldl (fun x y => x ||| y) a := by
  induction h with
  | nil => intro a; rfl
  | cons x _ ih =>
      intro a
      simp only [List.foldl_cons]
      exact ih _
  | swap x y l =>
      intro a
      simp only [List.foldl_cons]
      rw [show a ||| y ||| x = a ||| x ||| y by
        rw [Nat.or_assoc, Nat.or_assoc, Nat.or_comm y x]]
  | trans _ _ ih1 ih2 =>
      intro a
      exact (ih1 a).trans (ih2 a)

/-! ### Concrete fixtures used by witnesses and counterexamples -/

/-- A JSON parser stub used only to instantiate parser-parametric theorems at
concrete inputs in which no JSON text is ever parsed. -/
def jp0 : JsonParse := fun _ => .error "unavailable"

/-- An always-succeeding envelope signer for concrete Path A runs. -/
def signerA0 : EnvelopeSigner := fun _ => .ok ()

/-- An always-succeeding signdata RPC for concrete Path B runs. -/
def signer0 : Signer := fun _ _ => .ok (.jobj [("signature", .jstr "aa")])

/-! ### Claims -/

/-- Claim C8: over the boolean combinations of the six flag input fields that
avoid the forbidden pair, buildFlags is injective, equals the bitwise OR of
the disjoint per-field bits, and is order-independent: folding the per-field
bits in any permutation yields the identical value. -/
theorem C8_flag_composition (p q : Payload)
    (_hp : ¬(p.flagHasSignature = true ∧ p.flagForUsersSignature = true))
    (_hq : ¬(q.flagHasSignature = true ∧ q.flagForUsersSignature = true)) :
    (buildFlags p = buildFlags q → flagTuple p = flagTuple q) ∧
    buildFlags p = flagsOfTuple (flagTuple p) ∧
    buildFlags p = (flagBitList p).foldl (fun a b => a ||| b) 0 ∧
    (∀ l : List Nat, (flagBitList p).Perm l →
      l.foldl (fun a b => a ||| b) 0 = buildFlags p) := by
  refine ⟨?_, buildFlags_eq_tuple p, buildFlags_eq_foldl p, ?_⟩
  · intro h
    exact flagsOfTuple_inj _ _ (by rw [← buildFlags_eq_tuple, ← buildFlags_eq_tuple, h])
  · intro l hperm
    rw [← foldl_or_perm hperm 0, ← buildFlags_eq_foldl]

/-- Payload fixture for the C8 witness. -/
def p8a : Payload := { flagHasRequestId := true, flagHasSignature := true }

/-- Second payload fixture for the C8 witness. -/
def p8b : Payload := { flagHasStatements := true, flagForUsersSignature := true }

theorem C8_witness :
    ¬(p8a.flagHasSignature = true ∧ p8a.flagForUsersSignature = true) ∧
    ¬(p8b.flagHasSignature = true ∧ p8b.flagForUsersSignature = true) ∧
    ((buildFlags p8a = buildFlags p8b → flagTuple p8a = flagTuple p8b) ∧
      buildFlags p8a = flagsOfTuple (flagTuple p8a) ∧
      buildFlags p8a = (flagBitList p8a).foldl (fun a b => a ||| b) 0 ∧
      (∀ l : List Nat, (flagBitList p8a).Perm l →
        l.foldl (fun a b => a ||| b) 0 = buildFlags p8a)) :=
  ⟨by decide, by decide, C8_flag_composition p8a p8b (by decide) (by decide)⟩

/-- Claim C9: the compact-address parser returns absent for null input, the
empty string, and every string that cleans (trim plus one trailing at-sign
strip) to empty; it rejects every non-null non-string value with a
ValidationError; and it parses the cleaned remainder of every other string as
a compact address. -/
theorem C9_compact_address_parsing (v : JVal) (fieldName : String) :
    (v = .jnull → parseOptionalIAddress v fieldName = .ok none) ∧
    (∀ s, v = .jstr s → cleanAddress s = "" →
      parseOptionalIAddress v fieldName = .ok none) ∧
    ((∀ s, v ≠ .jstr s) → v ≠ .jnull →
      parseOptionalIAddress v fieldName =
        .error (.validation (fieldName ++ " must be a string."))) ∧
    (∀ s, v = .jstr s → cleanAddress s ≠ "" →
      parseOptionalIAddress v fieldName =
        .ok (some (CompactIAddressObject.fromAddress (cleanAddress s)))) := by
  refine ⟨?_, ?_, ?_, ?_⟩
  · rintro rfl
    rfl
  · rintro s rfl hclean
    by_cases hs : s = ""
    · simp only [parseOptionalIAddress, if_pos hs]
    · simp only [parseOptionalIAddress, if_neg hs, if_pos hclean]
  · intro hns hnn
    cases v
    case jnull => exact absurd rfl hnn
    case jstr s => exact absurd rfl (hns s)
    all_goals rfl
  · rintro s rfl hclean
    have hs : s ≠ "" := by
      intro hs
      apply hclean
      rw [hs]
      decide
    simp only [parseOptionalIAddress, if_neg hs, if_neg hclean]

theorem C9_witness :
    cleanAddress " abc@ " ≠ "" ∧
    parseOptionalIAddress (.jstr " abc@ ") "requestId" =
      .ok (some (CompactIAddressObject.fromAddress (cleanAddress " abc@ "))) :=
  ⟨by decide,
    (C9_compact_address_parsing (.jstr " abc@ ") "requestId").2.2.2 " abc@ " rfl (by decide)⟩

/-- A string of length zero is the empty string. -/
theorem string_eq_empty_of_length {t : String} (h : t.length = 0) : t = "" := by
  cases t with
  | mk l =>
      cases l with
      | nil => rfl
      | cons c cs => exact absurd h (by simp [String.length])

/-- Counterexample to claim C4 as stated: the single-space input has length 1,
not 64, and contains no hex digit, yet the validator returns absent instead of
failing with a ValidationError. -/
theorem C4_counterexample :
    (" " : String).length ≠ 64 ∧ validateDataHash (some " ") = .ok none :=
  ⟨by decide, rfl⟩

/-- Claim C4 (amended): the hex-hash validator trims its input, and an input
that is empty or whitespace-only is treated as absent rather than an error;
when the trimmed input is a 64-character case-insensitive hex string it
decodes to a 32-byte buffer whose lowercase hex re-encoding equals the
lowercased trimmed input; every other non-empty trimmed input fails with a
ValidationError rather than coercing. -/
theorem C4_hash_validator_roundtrip (s : String) :
    (trimStr s = "" → validateDataHash (some s) = .ok none) ∧
    ((trimStr s).length = 64 → (trimStr s).data.all isHexDigit = true →
      validateDataHash (some s) = .ok (some (hexToBytes (trimStr s).data)) ∧
      (hexToBytes (trimStr s).data).length = 32 ∧
      bytesToHexStr (hexToBytes (trimStr s).data) =
        String.mk ((trimStr s).data.map Char.toLower)) ∧
    (trimStr s ≠ "" → ¬((trimStr s).length = 64 ∧ (trimStr s).data.all isHexDigit = true) →
      validateDataHash (some s) =
        .error (.validation "Data hash must be exactly 32 bytes (64 hex characters).")) := by
  refine ⟨?_, ?_, ?_⟩
  · intro h
    by_cases hs : s = ""
    · simp only [validateDataHash, if_pos hs]
    · simp only [validateDataHash, if_neg hs]
      rw [if_pos (by rw [h]; rfl)]
  · intro h64 hhex
    have hs : s ≠ "" := by
      intro hs
      subst hs
      rw [show trimStr "" = "" from rfl] at h64
      exact absurd h64 (by decide)
    have hne0 : ¬((trimStr s).length = 0) := by omega
    have hcond : ((trimStr s).length = 64 && (trimStr s).data.all isHexDigit) = true := by
      rw [hhex]
      simp only [Bool.and_true, decide_eq_true_eq]
      exact h64
    refine ⟨?_, ?_, ?_⟩
    · simp only [validateDataHash, if_neg hs]
      rw [if_neg hne0, if_pos hcond]
    · rw [hexToBytes_length]
      rw [show (trimStr s).data.length = (trimStr s).length from rfl, h64]
    · unfold bytesToHexStr
      exact congrArg String.mk (bytesToHex_hexToBytes _ hhex (by
        rw [show (trimStr s).data.length = (trimStr s).length from rfl, h64]))
  · intro hne hnot
    have hs : s ≠ "" := by
      intro hs
      subst hs
      exact hne rfl
    have hne0 : ¬((trimStr s).length = 0) := by
      intro h0
      exact hne (string_eq_empty_of_length h0)
    have hcond : ¬(((trimStr s).length = 64 && (trimStr s).data.all isHexDigit) = true) := by
      intro hcond
      simp only [Bool.and_eq_true, decide_eq_true_eq] at hcond
      exact hnot hcond
    simp only [validateDataHash, if_neg hs]
    rw [if_neg hne0, if_neg hcond]

/-- A 64-character mixed-case hex fixture. -/
def hex64 : String := "0123456789abcdef0123456789ABCDEF0123456789abcdef0123456789ABCDEF"

theorem C4_witness :
    (trimStr hex64).length = 64 ∧ (trimStr hex64).data.all isHexDigit = true ∧
    (validateDataHash (some hex64) = .ok (some (hexToBytes (trimStr hex64).data)) ∧
      (hexToBytes (trimStr hex64).data).length = 32 ∧
      bytesToHexStr (hexToBytes (trimStr hex64).data) =
        String.mk ((trimStr hex64).data.map Char.toLower)) :=
  ⟨by decide, by decide, (C4_hash_validator_roundtrip hex64).2.1 (by decide) (by decide)⟩

/-- Claim C2 (amended): for every payload whose signingId passes its
mandatory-string validation, setting both flagHasSignature and
flagForUsersSignature makes both handlers fail with the exact
mutual-exclusivity ValidationError, for every possible signer behaviour (so
before any RPC call), regardless of all other payload fields. -/
theorem C2_mutual_exclusivity (jp : JsonParse) (p : Payload) (sid : String)
    (hsid : requireString p.signingId "signingId" = .ok sid)
    (h1 : p.flagHasSignature = true) (h2 : p.flagForUsersSignature = true) :
    (∀ sA : EnvelopeSigner,
      generateDataPacketQr jp sA p = .error (.validation mutualExclusivityMsg)) ∧
    (∀ s : Signer, signDataPacket jp s p = .error (.validation mutualExclusivityMsg)) := by
  have hcore : generateDataPacketQrCore jp p = .error (.validation mutualExclusivityMsg) := by
    unfold generateDataPacketQrCore
    rw [hsid]
    simp [h1, h2]
  have hcore2 : signDataPacketCore jp p = .error (.validation mutualExclusivityMsg) := by
    unfold signDataPacketCore
    rw [hsid]
    simp [h1, h2]
  exact ⟨fun sA => generateDataPacketQr_core_error hcore,
    fun s => signDataPacket_core_error hcore2⟩

/-- Payload fixture: both signature flags set, signingId missing. -/
def pC2 : Payload := { flagHasSignature := true, flagForUsersSignature := true }

/-- Counterexample to claim C2 as stated: with both signature flags set but no
signingId supplied, both handlers fail with the signingId ValidationError,
whose message does not cite mutual exclusivity. -/
theorem C2_counterexample :
    pC2.flagHasSignature = true ∧ pC2.flagForUsersSignature = true ∧
    generateDataPacketQr jp0 signerA0 pC2 = .error (.validation "signingId is required.") ∧
    signDataPacket jp0 signer0 pC2 = .error (.validation "signingId is required.") ∧
    "signingId is required." ≠ mutualExclusivityMsg :=
  ⟨rfl, rfl, rfl, rfl, by decide⟩

/-- Payload fixture: both signature flags set with a valid signingId. -/
def pW2 : Payload :=
  { signingId := .jstr "iW", flagHasSignature := true, flagForUsersSignature := true }

theorem C2_witness :
    requireString pW2.signingId "signingId" = .ok "iW" ∧
    pW2.flagHasSignature = true ∧ pW2.flagForUsersSignature = true ∧
    ((∀ sA : EnvelopeSigner,
        generateDataPacketQr jp0 sA pW2 = .error (.validation mutualExclusivityMsg)) ∧
      (∀ s : Signer, signDataPacket jp0 s pW2 = .error (.validation mutualExclusivityMsg))) :=
  ⟨rfl, rfl, rfl, C2_mutual_exclusivity jp0 pW2 "iW" rfl rfl rfl⟩

/-- Payload fixture: statements supplied while flagHasStatements is false. -/
def pC3 : Payload := { signingId := .jstr "iSigner", statements := .jarr [.jstr "hello"] }

/-- Payload fixture: flagHasStatements set with no statements supplied. -/
def pC3b : Payload := { signingId := .jstr "iSigner", flagHasStatements := true }

/-- Counterexample to claim C3 as stated: with flagHasStatements false and a
non-empty statements list supplied, signDataPacket assembles details that do
contain statements (presence-gated, not flag-gated); and with the flag set
but statements absent, signDataPacket succeeds instead of failing with a
ValidationError (it has no flag-consistency check). -/
theorem C3_counterexample :
    pC3.flagHasStatements = false ∧
    signDataPacketCore jp0 pC3 =
      .ok ("iSigner", ⟨1, 0, [], some ["hello"], none⟩) ∧
    pC3b.flagHasStatements = true ∧
    parseStatements jp0 pC3b.statements = .ok none ∧
    signDataPacket jp0 signer0 pC3b =
      .ok { signatureData := normalizeSignatureData (.jobj [("signature", .jstr "aa")]),
            messageHex := "010000000200000000000000" } :=
  ⟨rfl, rfl, rfl, rfl, rfl⟩

/-- Claim C3 (amended): in generateDataPacketQr, flagHasStatements set while
the statements input is absent or parses to an empty list is an eager
ValidationError; signDataPacket performs no such check. In both paths the
assembled details carry exactly the parsed statements — the field is present
iff a non-empty list was supplied — regardless of the flag. -/
theorem C3_statements_gating (jp : JsonParse) (p : Payload) :
    (p.flagHasStatements = true → parseStatements jp p.statements = .ok none →
      ∃ m, generateDataPacketQrCore jp p = .error (.validation m) ∧
        ∀ sA : EnvelopeSigner, generateDataPacketQr jp sA p = .error (.validation m)) ∧
    (∀ req, generateDataPacketQrCore jp p = .ok req →
      parseStatements jp p.statements = .ok req.details.statements) ∧
    (∀ sid details, signDataPacketCore jp p = .ok (sid, details) →
      parseStatements jp p.statements = .ok details.statements) := by
  refine ⟨?_, ?_, ?_⟩
  · intro hflag hst
    cases hcore : generateDataPacketQrCore jp p with
    | error e =>
        obtain ⟨m, hm⟩ := generateDataPacketQrCore_error hcore
        subst hm
        exact ⟨m, rfl, fun sA => generateDataPacketQr_core_error hcore⟩
    | ok req =>
        exfalso
        obtain ⟨-, hst', -, -, -, -, hflag_st, -, -, -, -⟩ :=
          generateDataPacketQrCore_ok hcore
        rw [hst] at hst'
        injection hst' with h1
        exact hflag_st hflag h1.symm
  · intro req hcore
    obtain ⟨-, hst', -, -, -, -, -, -, -, -, -⟩ := generateDataPacketQrCore_ok hcore
    exact hst'
  · intro sid details hcore
    obtain ⟨-, -, hst', -, -, -, -⟩ := signDataPacketCore_ok hcore
    exact hst'

/-- Payload fixture for the C3 witness. -/
def pW3 : Payload := { signingId := .jstr "iW", flagHasStatements := true }

theorem C3_witness :
    pW3.flagHasStatements = true ∧ parseStatements jp0 pW3.statements = .ok none ∧
    (∃ m, generateDataPacketQrCore jp0 pW3 = .error (.validation m) ∧
      ∀ sA : EnvelopeSigner, generateDataPacketQr jp0 sA pW3 = .error (.validation m)) :=
  ⟨rfl, rfl, (C3_statements_gating jp0 pW3).1 rfl rfl⟩

/-- Payload fixture: flagHasRequestId set with no requestId supplied. -/
def pC5 : Payload := { signingId := .jstr "iSigner", flagHasRequestId := true }

/-- Counterexample to claim C5 as stated: with flagHasRequestId set and no
requestId supplied, signDataPacket succeeds (returning details without a
requestID) instead of failing with a ValidationError — the flag-consistency
check exists only in generateDataPacketQr. -/
theorem C5_counterexample :
    pC5.flagHasRequestId = true ∧
    parseOptionalIAddress pC5.requestId "requestId" = .ok none ∧
    signDataPacket jp0 signer0 pC5 =
      .ok { signatureData := normalizeSignatureData (.jobj [("signature", .jstr "aa")]),
            messageHex := "010000000100000000000000" } :=
  ⟨rfl, rfl, rfl⟩

/-- Claim C5 (amended): in generateDataPacketQr, flagHasRequestId set while no
valid compact address is supplied (absent, or cleaning to empty) is an eager
ValidationError; signDataPacket performs no such check and simply assembles
details whose requestID is the parsed optional address. -/
theorem C5_request_id_gating (jp : JsonParse) (p : Payload) :
    (p.flagHasRequestId = true → parseOptionalIAddress p.requestId "requestId" = .ok none →
      ∃ m, generateDataPacketQrCore jp p = .error (.validation m) ∧
        ∀ sA : EnvelopeSigner, generateDataPacketQr jp sA p = .error (.validation m)) ∧
    (∀ sid details, signDataPacketCore jp p = .ok (sid, details) →
      parseOptionalIAddress p.requestId "requestId" = .ok details.requestID) := by
  refine ⟨?_, ?_⟩
  · intro hflag hrid
    cases hcore : generateDataPacketQrCore jp p with
    | error e =>
        obtain ⟨m, hm⟩ := generateDataPacketQrCore_error hcore
        subst hm
        exact ⟨m, rfl, fun sA => generateDataPacketQr_core_error hcore⟩
    | ok req =>
        exfalso
        obtain ⟨-, -, hrid', -, -, -, -, hflag_rid, -, -, -⟩ :=
          generateDataPacketQrCore_ok hcore
        rw [hrid] at hrid'
        injection hrid' with h1
        exact hflag_rid hflag h1.symm
  · intro sid details hcore
    obtain ⟨-, -, -, hrid', -, -, -⟩ := signDataPacketCore_ok hcore
    exact hrid'

/-- Payload fixture for the C5 witness: a requestId that cleans to empty. -/
def pW5 : Payload :=
  { signingId := .jstr "iW", flagHasRequestId := true, requestId := .jstr " @ " }

theorem C5_witness :
    pW5.flagHasRequestId = true ∧
    parseOptionalIAddress pW5.requestId "requestId" = .ok none ∧
    (∃ m, generateDataPacketQrCore jp0 pW5 = .error (.validation m) ∧
      ∀ sA : EnvelopeSigner, generateDataPacketQr jp0 sA pW5 = .error (.validation m)) :=
  ⟨rfl, rfl, (C5_request_id_gating jp0 pW5).1 rfl rfl⟩

/-! ### The URL branch never reads the explicit signableObjects input -/

theorem signableObjectsFor_ignores {jp : JsonParse} {p : Payload} {v : JVal}
    (hflag : p.flagHasUrlForDownload = true) :
    signableObjectsFor jp { p with signableObjects := v } = signableObjectsFor jp p := by
  simp [signableObjectsFor, downloadUrlOf, dataHashOf, hflag]

theorem generateDataPacketQrCore_ignores {jp : JsonParse} {p : Payload} {v : JVal}
    (hflag : p.flagHasUrlForDownload = true) :
    generateDataPacketQrCore jp { p with signableObjects := v } =
      generateDataPacketQrCore jp p := by
  unfold generateDataPacketQrCore
  rw [signableObjectsFor_ignores hflag]
  rfl

theorem generate_ignores_signableObjects {jp : JsonParse} {sA : EnvelopeSigner} {p : Payload}
    {v : JVal} (hflag : p.flagHasUrlForDownload = true) :
    generateDataPacketQr jp sA { p with signableObjects := v } =
      generateDataPacketQr jp sA p := by
  unfold generateDataPacketQr
  rw [generateDataPacketQrCore_ignores hflag]

theorem signDataPacketCore_ignores {jp : JsonParse} {p : Payload} {v : JVal}
    (hflag : p.flagHasUrlForDownload = true) :
    signDataPacketCore jp { p with signableObjects := v } = signDataPacketCore jp p := by
  unfold signDataPacketCore
  rw [signableObjectsFor_ignores hflag]
  rfl

theorem sign_ignores_signableObjects {jp : JsonParse} {s : Signer} {p : Payload}
    {v : JVal} (hflag : p.flagHasUrlForDownload = true) :
    signDataPacket jp s { p with signableObjects := v } = signDataPacket jp s p := by
  unfold signDataPacket
  rw [signDataPacketCore_ignores hflag]

theorem sign_ignores_redirects {jp : JsonParse} {s : Signer} {p : Payload} {v : JVal} :
    signDataPacket jp s { p with redirects := v } = signDataPacket jp s p := rfl

/-- In URL mode with a non-empty URL, the selected signable objects are
exactly the one URL descriptor produced by buildUrlDataDescriptor. -/
theorem signableObjectsFor_url {jp : JsonParse} {p : Payload}
    (hflag : p.flagHasUrlForDownload = true) (hurl : downloadUrlOf p ≠ "") :
    signableObjectsFor jp p =
      match buildUrlDataDescriptor (downloadUrlOf p) (dataHashOf p) with
      | .error e => .error e
      | .ok d => .ok [d] := by
  unfold signableObjectsFor
  rw [if_pos hflag, if_neg hurl]

theorem signableObjectsFor_ok_url {jp : JsonParse} {p : Payload} {so : List DataDescriptor}
    (hflag : p.flagHasUrlForDownload = true) (hurl : downloadUrlOf p ≠ "")
    (h : signableObjectsFor jp p = .ok so) :
    ∃ dh, validateDataHash (dataHashOf p) = .ok dh ∧
      so = [urlDescriptorOf (downloadUrlOf p) dh] := by
  rw [signableObjectsFor_url hflag hurl, buildUrlDataDescriptor_eq] at h
  cases hv : validateDataHash (dataHashOf p) with
  | error e =>
      rw [hv] at h
      exact Except.noConfusion h
  | ok dh =>
      rw [hv] at h
      injection h with h1
      exact ⟨dh, rfl, h1.symm⟩

/-- Claim C1: when flagHasUrlForDownload is set and downloadUrl is non-empty
after trimming, every successfully assembled details object carries exactly
one signable object — the synthesized URL descriptor, whose objectdata is the
serialized keyed-union container holding a URLRef with version 1, the
submitted URL, and the optional validated datahash — and any explicitly
supplied signableObjects input is discarded entirely; in both
generateDataPacketQr and signDataPacket. -/
theorem C1_url_mode (jp : JsonParse) (p : Payload)
    (hflag : p.flagHasUrlForDownload = true) (hurl : downloadUrlOf p ≠ "") :
    (∀ req, generateDataPacketQrCore jp p = .ok req →
      ∃ dh, validateDataHash (dataHashOf p) = .ok dh ∧
        req.details.signableObjects = [urlDescriptorOf (downloadUrlOf p) dh]) ∧
    (∀ sid details, signDataPacketCore jp p = .ok (sid, details) →
      ∃ dh, validateDataHash (dataHashOf p) = .ok dh ∧
        details.signableObjects = [urlDescriptorOf (downloadUrlOf p) dh]) ∧
    (∀ (v : JVal) (sA : EnvelopeSigner),
      generateDataPacketQr jp sA { p with signableObjects := v } =
        generateDataPacketQr jp sA p) ∧
    (∀ (v : JVal) (s : Signer),
      signDataPacket jp s { p with signableObjects := v } = signDataPacket jp s p) := by
  refine ⟨?_, ?_, fun _ _ => generate_ignores_signableObjects hflag,
    fun _ _ => sign_ignores_signableObjects hflag⟩
  · intro req hcore
    obtain ⟨-, -, -, hso, -, -, -, -, -, -, -⟩ := generateDataPacketQrCore_ok hcore
    obtain ⟨dh, hdh, hlist⟩ := signableObjectsFor_ok_url hflag hurl hso
    exact ⟨dh, hdh, hlist⟩
  · intro sid details hcore
    obtain ⟨-, -, -, -, hso, -, -⟩ := signDataPacketCore_ok hcore
    obtain ⟨dh, hdh, hlist⟩ := signableObjectsFor_ok_url hflag hurl hso
    exact ⟨dh, hdh, hlist⟩

/-- Payload fixture for the C1 witness: URL mode with a malformed explicit
signableObjects value and one redirect. -/
def pW1 : Payload :=
  { signingId := .jstr "iW", flagHasUrlForDownload := true,
    downloadUrl := .jstr "https://x.test/f", signableObjects := .jnum 3,
    redirects := .jarr [.jobj [("type", .jstr "1"), ("uri", .jstr "https://a")]] }

theorem C1_witness :
    pW1.flagHasUrlForDownload = true ∧ downloadUrlOf pW1 ≠ "" ∧
    ((∀ req, generateDataPacketQrCore jp0 pW1 = .ok req →
        ∃ dh, validateDataHash (dataHashOf pW1) = .ok dh ∧
          req.details.signableObjects = [urlDescriptorOf (downloadUrlOf pW1) dh]) ∧
      (∀ sid details, signDataPacketCore jp0 pW1 = .ok (sid, details) →
        ∃ dh, validateDataHash (dataHashOf pW1) = .ok dh ∧
          details.signableObjects = [urlDescriptorOf (downloadUrlOf pW1) dh]) ∧
      (∀ (v : JVal) (sA : EnvelopeSigner),
        generateDataPacketQr jp0 sA { pW1 with signableObjects := v } =
          generateDataPacketQr jp0 sA pW1) ∧
      (∀ (v : JVal) (s : Signer),
        signDataPacket jp0 s { pW1 with signableObjects := v } =
          signDataPacket jp0 s pW1)) :=
  ⟨rfl, by decide, C1_url_mode jp0 pW1 rfl (by decide)⟩

/-- Claim C10: when flagHasUrlForDownload is set, the signableObjects payload
field is never parsed or validated in either path — the outcome of both
handlers is invariant under every change to it, even a malformed value that
parseSignableObjects would reject — because the signable-objects parser runs
only on the branch where the flag is false. -/
theorem C10_signable_objects_unread (p : Payload) (hflag : p.flagHasUrlForDownload = true) :
    (∀ (jp : JsonParse) (sA : EnvelopeSigner) (v : JVal),
      generateDataPacketQr jp sA { p with signableObjects := v } =
        generateDataPacketQr jp sA p) ∧
    (∀ (jp : JsonParse) (s : Signer) (v : JVal),
      signDataPacket jp s { p with signableObjects := v } = signDataPacket jp s p) ∧
    (∀ jp : JsonParse, parseSignableObjects jp (.jnum 3) =
      .error (.validation "signableObjects must be a JSON array.")) :=
  ⟨fun _ _ _ => generate_ignores_signableObjects hflag,
    fun _ _ _ => sign_ignores_signableObjects hflag,
    fun _ => rfl⟩

/-- Payload fixture for the C10 witness. -/
def pW10 : Payload := { signingId := .jstr "iW", flagHasUrlForDownload := true }

theorem C10_witness :
    pW10.flagHasUrlForDownload = true ∧
    ((∀ (jp : JsonParse) (sA : EnvelopeSigner) (v : JVal),
        generateDataPacketQr jp sA { pW10 with signableObjects := v } =
          generateDataPacketQr jp sA pW10) ∧
      (∀ (jp : JsonParse) (s : Signer) (v : JVal),
        signDataPacket jp s { pW10 with signableObjects := v } =
          signDataPacket jp s pW10) ∧
      (∀ jp : JsonParse, parseSignableObjects jp (.jnum 3) =
        .error (.validation "signableObjects must be a JSON array."))) :=
  ⟨rfl, C10_signable_objects_unread pW10 rfl⟩

/-- The redirects input offers no non-empty redirect array through either
accepted channel: it is absent (null, the empty string, or the "[]" literal),
an empty array, a non-array non-string value, or a string that does not parse
to a non-empty array. -/
def redirectsLacksNonemptyArray (jp : JsonParse) (v : JVal) : Prop :=
  match v with
  | .jnull => True
  | .jarr xs => xs = []
  | .jstr s => s = "" ∨ s = "[]" ∨
      (match jp s with
       | .ok (.jarr (_ :: _)) => False
       | _ => True)
  | _ => True

/-- Claim C6: generateDataPacketQr fails with a ValidationError, identically
for every signer (so before any RPC call), whenever the redirects input is
absent, not a (parsed or JSON-encoded) array, or an empty array; while
signDataPacket never reads a redirects field: its outcome is invariant under
every change to it. -/
theorem C6_redirects_required (jp : JsonParse) (p : Payload)
    (h : redirectsLacksNonemptyArray jp p.redirects) :
    (∃ m, generateDataPacketQrCore jp p = .error (.validation m) ∧
      ∀ sA : EnvelopeSigner, generateDataPacketQr jp sA p = .error (.validation m)) ∧
    (∀ (s : Signer) (v : JVal),
      signDataPacket jp s { p with redirects := v } = signDataPacket jp s p) := by
  refine ⟨?_, fun s v => sign_ignores_redirects⟩
  cases hcore : generateDataPacketQrCore jp p with
  | error e =>
      obtain ⟨m, hm⟩ := generateDataPacketQrCore_error hcore
      subst hm
      exact ⟨m, rfl, fun sA => generateDataPacketQr_core_error hcore⟩
  | ok req =>
      exfalso
      obtain ⟨-, -, -, -, hred, hne, -, -, -, -, -⟩ := generateDataPacketQrCore_ok hcore
      cases hv : p.redirects with
      | jnull =>
          rw [hv] at hred
          rw [show parseJsonField jp .jnull "redirects" true =
            .error (.validation "redirects is required.") from rfl] at hred
          exact Except.noConfusion hred
      | jarr xs =>
          rw [hv] at h hred
          simp only [redirectsLacksNonemptyArray] at h
          subst h
          rw [show parseJsonField jp (.jarr []) "redirects" true = .ok (.jarr []) from rfl]
            at hred
          injection hred with h1
          injection h1 with h2
          exact hne h2.symm
      | jstr s =>
          rw [hv] at h hred
          simp only [redirectsLacksNonemptyArray] at h
          by_cases hs1 : s = ""
          · subst hs1
            rw [show parseJsonField jp (.jstr "") "redirects" true =
              .error (.validation "redirects is required.") from rfl] at hred
            exact Except.noConfusion hred
          by_cases hs2 : s = "[]"
          · subst hs2
            rw [show parseJsonField jp (.jstr "[]") "redirects" true =
              .error (.validation "redirects is required.") from rfl] at hred
            exact Except.noConfusion hred
          rcases h with h | h | h
          · exact hs1 h
          · exact hs2 h
          · simp only [parseJsonField] at hred
            rw [if_neg (fun hc => hc.elim hs1 hs2)] at hred
            cases hjp : jp s with
            | error m =>
                rw [hjp] at hred
                exact Except.noConfusion hred
            | ok parsed =>
                rw [hjp] at hred h
                injection hred with h1
                subst h1
                cases hxs : req.redirects with
                | nil => exact hne hxs
                | cons a l =>
                    rw [hxs] at h
                    exact h
      | jbool b =>
          rw [hv] at hred
          rw [show parseJsonField jp (.jbool b) "redirects" true = .ok (.jbool b) from rfl]
            at hred
          injection hred with h1
          exact JVal.noConfusion h1
      | jnum n =>
          rw [hv] at hred
          rw [show parseJsonField jp (.jnum n) "redirects" true = .ok (.jnum n) from rfl]
            at hred
          injection hred with h1
          exact JVal.noConfusion h1
      | jobj fields =>
          rw [hv] at hred
          rw [show parseJsonField jp (.jobj fields) "redirects" true = .ok (.jobj fields)
            from rfl] at hred
          injection hred with h1
          exact JVal.noConfusion h1

/-- Payload fixture for the C6 witness: redirects absent. -/
def pW6 : Payload := { signingId := .jstr "iW" }

theorem C6_witness :
    redirectsLacksNonemptyArray jp0 pW6.redirects ∧
    ((∃ m, generateDataPacketQrCore jp0 pW6 = .error (.validation m) ∧
        ∀ sA : EnvelopeSigner, generateDataPacketQr jp0 sA pW6 = .error (.validation m)) ∧
      (∀ (s : Signer) (v : JVal),
        signDataPacket jp0 s { pW6 with redirects := v } = signDataPacket jp0 s pW6)) :=
  ⟨trivial, C6_redirects_required jp0 pW6 trivial⟩

/-- Claim C7: on every successful signDataPacket call, the returned
messageHex is the hex encoding of the serialized assembled
DataPacketRequestDetails alone (a Details value: no envelope, no redirects),
the identical hex string is the message the signer RPC was invoked with (the
outcome depends on the signer only through its value at that message), and
the response carries the signatureData normalized from the signer wire
response. -/
theorem C7_sign_only_messagehex (jp : JsonParse) (signer : Signer) (p : Payload)
    (r : SignResponse) (h : signDataPacket jp signer p = .ok r) :
    ∃ sid details w,
      signDataPacketCore jp p = .ok (sid, details) ∧
      r.messageHex = bytesToHexStr (detailsToBuffer details) ∧
      signer sid r.messageHex = .ok w ∧
      r.signatureData = normalizeSignatureData w ∧
      (∀ signer2 : Signer, signer2 sid r.messageHex = signer sid r.messageHex →
        signDataPacket jp signer2 p = signDataPacket jp signer p) := by
  unfold signDataPacket at h
  split at h
  next e heq => exact Except.noConfusion h
  next sid details heq =>
    unfold signDataPacketRpc at h
    split at h
    next m heq2 => exact Except.noConfusion h
    next w heq2 =>
      split at h
      next fields =>
        split at h
        next s hlook =>
          have hmh : r.messageHex = bytesToHexStr (detailsToBuffer details) := by
            injection h with h1
            rw [← h1]
          have hsd : r.signatureData = normalizeSignatureData (.jobj fields) := by
            injection h with h1
            rw [← h1]
          refine ⟨sid, details, .jobj fields, heq, hmh, ?_, hsd, ?_⟩
          · rw [hmh]
            exact heq2
          · intro signer2 hs2
            rw [hmh] at hs2
            unfold signDataPacket
            rw [heq]
            show signDataPacketRpc signer2 sid details = signDataPacketRpc signer sid details
            unfold signDataPacketRpc
            rw [hs2]
        next hlook => exact Except.noConfusion h
      next => exact Except.noConfusion h

/-- Payload fixture for the C7 witness. -/
def pW7 : Payload := { signingId := .jstr "iW" }

/-- The expected successful response for the C7 witness run. -/
def rW7 : SignResponse :=
  { signatureData := normalizeSignatureData (.jobj [("signature", .jstr "aa")])
    messageHex := "010000000000000000000000" }

theorem C7_witness :
    signDataPacket jp0 signer0 pW7 = .ok rW7 ∧
    (∃ sid details w,
      signDataPacketCore jp0 pW7 = .ok (sid, details) ∧
      rW7.messageHex = bytesToHexStr (detailsToBuffer details) ∧
      signer0 sid rW7.messageHex = .ok w ∧
      rW7.signatureData = normalizeSignatureData w ∧
      (∀ signer2 : Signer, signer2 sid rW7.messageHex = signer0 sid rW7.messageHex →
        signDataPacket jp0 signer2 pW7 = signDataPacket jp0 signer0 pW7)) :=
  ⟨rfl, C7_sign_only_messagehex jp0 signer0 pW7 rW7 rfl⟩

end VerusQr
